import Mathlib

/-!
Shallow embedding of the asynchronous Webset job-tracking core of the
exa-mcp-server repository (src/middleware/websetJobManager.ts).

The registry is the in-memory `Map<string, JobData>` of `WebsetJobManager`,
modelled as an association list in insertion order (a JavaScript `Map`
iterates in insertion order, and `set` on an existing key keeps its
position).  Upstream HTTP calls are modelled as oracle parameters: the
create call of `startWebsetJob` is an `Except String String` (error message
or webset id), and the fetch of `getJobStatus` is an
`Except String WebsetData`.  Timestamps are `Nat`.
-/

/-- Job states, from the `JobStatus` enum used by `websetJobManager.ts`
(PENDING, RUNNING, COMPLETED, FAILED). -/
inductive JobStatus where
  | pending
  | running
  | completed
  | failed
  deriving DecidableEq, Repr

/-- The per-search slice of an `ExaWebsetsResponse` read by the job manager:
`searches[i].status` and `searches[i].canceledReason`. -/
structure SearchInfo where
  status : String
  canceledReason : Option String
  deriving DecidableEq, Repr

/-- The slice of an `ExaWebsetsResponse` payload read by the job manager:
`id` and the `searches` array.  The whole payload is stored in `results`,
so this type also plays the role of the stored results blob. -/
structure WebsetData where
  id : String
  searches : List SearchInfo
  deriving DecidableEq, Repr

/-- A job record, after `JobData` in `websetJobManager.ts`. -/
structure JobData where
  jobId : String
  websetId : Option String
  status : JobStatus
  results : Option WebsetData
  error : Option String
  createdAt : Nat
  updatedAt : Nat
  deriving DecidableEq, Repr

/-- Lookup in the registry: `this.jobs.get(jobId)`. -/
def findJob : List JobData → String → Option JobData
  | [], _ => none
  | j :: rest, id => if j.jobId = id then some j else findJob rest id

/-- Store in the registry: `this.jobs.set(jobId, v)`.  A JavaScript `Map`
updates an existing key in place (keeping its position) and appends a new
key at the end. -/
def setJob : List JobData → String → JobData → List JobData
  | [], _, v => [v]
  | j :: rest, id, v =>
      if j.jobId = id then v :: rest else j :: setJob rest id v

/-- The record `startWebsetJob` first inserts: status PENDING, no websetId,
no results, no error. -/
def initialJobData (jobId : String) (now : Nat) : JobData :=
  { jobId := jobId
    websetId := none
    status := .pending
    results := none
    error := none
    createdAt := now
    updatedAt := now }

/-- Embedding of `startWebsetJob` (websetJobManager.ts lines 310-362).
`createResult` is the outcome of the POST to `/websets/v0/websets`:
`.ok websetId` on success, `.error msg` when the call threw.  Returns the
updated registry together with the returned `jobId` (the source returns the
jobId in the success and in the failure branch alike). -/
def startWebsetJob (jobs : List JobData) (jobId : String) (now now2 : Nat)
    (createResult : Except String String) : List JobData × String :=
  let jobs1 := setJob jobs jobId (initialJobData jobId now)
  match createResult with
  | .ok websetId =>
      (setJob jobs1 jobId
        { initialJobData jobId now with
            websetId := some websetId
            status := .running
            updatedAt := now2 }, jobId)
  | .error msg =>
      (setJob jobs1 jobId
        { initialJobData jobId now with
            status := .failed
            error := some msg
            updatedAt := now2 }, jobId)

/-- The poll path's view of the first search status:
`websetData.searches.length > 0 ? websetData.searches[0].status : 'not_started'`. -/
def searchStatusOf (d : WebsetData) : String :=
  match d.searches with
  | [] => "not_started"
  | s :: _ => s.status

/-- JavaScript `x || 'Unknown'` on an optional string (undefined and the
empty string are both falsy). -/
def orUnknown : Option String → String
  | none => "Unknown"
  | some s => if s = "" then "Unknown" else s

/-- The cancellation reason read by both channels:
`searches[0]?.canceledReason || 'Unknown'`. -/
def canceledReasonStr (d : WebsetData) : String :=
  match d.searches with
  | [] => "Unknown"
  | s :: _ => orUnknown s.canceledReason

/-- The view of a job returned by `getJobStatus` (the source returns
`{status, results, error}` as a `Partial<JobData>`). -/
structure JobView where
  status : JobStatus
  results : Option WebsetData
  error : Option String
  deriving DecidableEq, Repr

/-- The poll path's per-job update on a successful fetch
(websetJobManager.ts lines 419-452): completed search → COMPLETED with the
payload stored; canceled search → FAILED with a cancellation error and the
payload stored; anything else → RUNNING with the payload stored as the
latest snapshot.  `updatedAt` is set to now in every branch. -/
def pollApply (job : JobData) (websetData : WebsetData) (now : Nat) : JobData :=
  let searchStatus := searchStatusOf websetData
  if searchStatus = "completed" then
    { job with
        status := .completed
        results := some websetData
        updatedAt := now }
  else if searchStatus = "canceled" then
    { job with
        status := .failed
        results := some websetData
        error := some ("Webset creation was canceled (Reason: " ++
          canceledReasonStr websetData ++ ")")
        updatedAt := now }
  else
    { job with
        status := .running
        results := some websetData
        updatedAt := now }

/-- The poll path's per-job update when the fetch throws
(websetJobManager.ts lines 460-469): status FAILED, error
`Status check failed: msg`, results untouched. -/
def pollError (job : JobData) (msg : String) (now : Nat) : JobData :=
  { job with
      status := .failed
      error := some ("Status check failed: " ++ msg)
      updatedAt := now }

/-- Embedding of `getJobStatus` (websetJobManager.ts lines 369-476).
Returns `.error` only for an unknown jobId (the source throws there);
otherwise the updated registry and the `{status, results, error}` view.
`fetchResult` is the outcome of the GET on the webset; it is consulted only
when the job is non-terminal and has a websetId. -/
def getJobStatus (jobs : List JobData) (jobId : String)
    (fetchResult : Except String WebsetData) (now : Nat) :
    Except String (List JobData × JobView) :=
  match findJob jobs jobId with
  | none => .error ("Job with ID " ++ jobId ++ " not found.")
  | some job =>
      if job.status = .completed ∨ job.status = .failed then
        .ok (jobs, ⟨job.status, job.results, job.error⟩)
      else
        match job.websetId with
        | none => .ok (jobs, ⟨job.status, job.results, job.error⟩)
        | some _ =>
            match fetchResult with
            | .ok websetData =>
                let updated := pollApply job websetData now
                .ok (setJob jobs jobId updated,
                  ⟨updated.status, updated.results, updated.error⟩)
            | .error msg =>
                let updated := pollError job msg now
                .ok (setJob jobs jobId updated,
                  ⟨updated.status, updated.results, updated.error⟩)

/-- A webhook payload as read by `handleWebhookUpdate`: `payload.type` and
`payload.data` (whose `id` is the upstream webset id).  A missing field is
modelled as the empty string, which is falsy in the source's check. -/
structure WebhookPayload where
  type : String
  data : WebsetData
  deriving DecidableEq, Repr

/-- The webhook path's view of the first search status:
`eventData.searches && eventData.searches.length > 0 ?
eventData.searches[0].status : null`. -/
def webhookSearchStatus (d : WebsetData) : Option String :=
  match d.searches with
  | [] => none
  | s :: _ => some s.status

/-- The guarded write at the end of the webhook match (websetJobManager.ts
lines 537-548): the record is replaced, with `updatedAt` advanced, only if
status, results or error actually changed.  The source compares
`results !== job.results` by reference; a fresh payload object is never
reference-equal to the stored one, which structural inequality
conservatively models. -/
def webhookWrite (job : JobData) (newStatus : JobStatus)
    (results : Option WebsetData) (error : Option String) (now : Nat) : JobData :=
  if newStatus ≠ job.status ∨ results ≠ job.results ∨ error ≠ job.error then
    { job with
        status := newStatus
        results := results
        error := error
        updatedAt := now }
  else job

/-- The webhook path's per-job update for a non-terminal matched job
(websetJobManager.ts lines 510-548): completed event or completed search →
COMPLETED, payload stored, error cleared; canceled event or canceled search
→ FAILED with a cancellation error and the payload stored; otherwise status
and error are kept and results is overwritten with the payload; the
candidate is then applied through the guarded write. -/
def applyWebhookToJob (job : JobData) (eventType : String)
    (eventData : WebsetData) (now : Nat) : JobData :=
  let searchStatus := webhookSearchStatus eventData
  if eventType = "webset.search.completed" ∨ searchStatus = some "completed" then
    webhookWrite job .completed (some eventData) none now
  else if eventType = "webset.search.canceled" ∨ searchStatus = some "canceled" then
    webhookWrite job .failed (some eventData)
      (some ("Webset processing failed or was canceled via webhook (Reason: " ++
        canceledReasonStr eventData ++ ")")) now
  else
    webhookWrite job job.status (some eventData) job.error now

/-- The scan of `handleWebhookUpdate` over the registry entries: stops at
the first record whose `websetId` matches the payload's `data.id`; if that
record is terminal the whole update is ignored, otherwise only that record
is replaced; in either case the scan returns without visiting later
entries. -/
def webhookLoop (jobs : List JobData) (eventType : String)
    (eventData : WebsetData) (websetId : String) (now : Nat) : List JobData :=
  match jobs with
  | [] => []
  | job :: rest =>
      if job.websetId = some websetId then
        if job.status = .completed ∨ job.status = .failed then
          job :: rest
        else
          applyWebhookToJob job eventType eventData now :: rest
      else
        job :: webhookLoop rest eventType eventData websetId now

/-- Embedding of `handleWebhookUpdate` (websetJobManager.ts lines 483-557).
An invalid payload (falsy `type` or `data.id`) is discarded; otherwise the
registry is scanned for the first record whose `websetId` matches
`payload.data.id`. -/
def handleWebhookUpdate (jobs : List JobData) (payload : WebhookPayload)
    (now : Nat) : List JobData :=
  if payload.type = "" ∨ payload.data.id = "" then jobs
  else webhookLoop jobs payload.type payload.data payload.data.id now

/-- Modelled from the spec: the retention sweep `sweep(maxAge,
preserveCompleted)` of §4.4 (the source keeps only the commented-out stub
`cleanupJobs(maxAgeMinutes)` at websetJobManager.ts lines 559-560).  Scans
all records, computes `now - updatedAt`, and deletes any record exceeding
`maxAge` unless `preserveCompleted` is set and the record's status is
`Completed`. -/
def sweep (jobs : List JobData) (now maxAge : Nat)
    (preserveCompleted : Bool) : List JobData :=
  jobs.filter fun j =>
    ¬(now - j.updatedAt > maxAge ∧ ¬(preserveCompleted ∧ j.status = .completed))

/-- The upstream HTTP calls the job manager can issue: the create POST of
`startWebsetJob` and the status GET of `getJobStatus`. -/
inductive UpstreamCall where
  | create
  | fetch (websetId : String)
  deriving DecidableEq, Repr

/-- The upstream calls one `getJobStatus` invocation issues: none for an
unknown or terminal job or when `websetId` is unset, one GET otherwise. -/
def pollCalls (jobs : List JobData) (jobId : String) : List UpstreamCall :=
  match findJob jobs jobId with
  | none => []
  | some job =>
      if job.status = .completed ∨ job.status = .failed then []
      else
        match job.websetId with
        | none => []
        | some wid => [.fetch wid]

/-- The operations that mutate the registry, with their oracle inputs. -/
inductive Op where
  | submit (jobId : String) (now now2 : Nat) (createResult : Except String String)
  | poll (jobId : String) (fetchResult : Except String WebsetData) (now : Nat)
  | webhook (payload : WebhookPayload) (now : Nat)
  | cleanup (now maxAge : Nat) (preserveCompleted : Bool)

/-- Registry effect of one operation. -/
def execOp (jobs : List JobData) : Op → List JobData
  | .submit jobId now now2 res => (startWebsetJob jobs jobId now now2 res).1
  | .poll jobId fetch now =>
      match getJobStatus jobs jobId fetch now with
      | .ok (jobs2, _) => jobs2
      | .error _ => jobs
  | .webhook payload now => handleWebhookUpdate jobs payload now
  | .cleanup now maxAge pc => sweep jobs now maxAge pc

/-- Registry after a sequence of operations. -/
def execOps (jobs : List JobData) (ops : List Op) : List JobData :=
  ops.foldl execOp jobs

/-- The upstream calls one operation issues: `startWebsetJob` always issues
exactly one create POST; a poll issues what `pollCalls` says; webhook
handling and the sweep issue none. -/
def opCalls (jobs : List JobData) : Op → List UpstreamCall
  | .submit _ _ _ _ => [.create]
  | .poll jobId _ _ => pollCalls jobs jobId
  | .webhook _ _ => []
  | .cleanup _ _ _ => []

/-- The upstream-call trace of a sequence of operations. -/
def execTrace (jobs : List JobData) : List Op → List UpstreamCall
  | [] => []
  | op :: ops => opCalls jobs op ++ execTrace (execOp jobs op) ops

/-- Number of create POSTs in a trace. -/
def countCreates (trace : List UpstreamCall) : Nat :=
  (trace.filter fun c => c = .create).length

/-- Whether an operation is a `getJobStatus` poll. -/
def Op.isPoll : Op → Bool
  | .poll _ _ _ => true
  | _ => false

/-- Index of the first registry entry whose `websetId` matches, mirroring
the scan order of `handleWebhookUpdate`. -/
def firstMatchIdx (jobs : List JobData) (websetId : String) : Option Nat :=
  match jobs with
  | [] => none
  | j :: rest =>
      if j.websetId = some websetId then some 0
      else (firstMatchIdx rest websetId).map (· + 1)

/-- The webhook event type that carries the same upstream information as a
fetched payload: the event vocabulary of WebhookHandler maps a completed
first search to webset.search.completed, a canceled one to
webset.search.canceled, and anything else to a progress event. -/
def equivalentEventType (d : WebsetData) : String :=
  match webhookSearchStatus d with
  | some s =>
      if s = "completed" then "webset.search.completed"
      else if s = "canceled" then "webset.search.canceled"
      else "webset.search.running"
  | none => "webset.search.running"

/-! ## Registry lemmas -/

/-- After storing a record whose `jobId` field is `id`, lookup of `id`
finds exactly that record. -/
theorem findJob_setJob_self (l : List JobData) (id : String) (v : JobData)
    (hv : v.jobId = id) : findJob (setJob l id v) id = some v := by
  induction l with
  | nil => simp [setJob, findJob, hv]
  | cons j rest ih =>
      by_cases hj : j.jobId = id
      · simp [setJob, hj, findJob, hv]
      · simp [setJob, hj, findJob, ih]

/-- Every member of `setJob l id v` is `v` or a member of `l`. -/
theorem mem_setJob (l : List JobData) (id : String) (v j : JobData)
    (hj : j ∈ setJob l id v) : j = v ∨ j ∈ l := by
  induction l with
  | nil => simp [setJob] at hj; exact Or.inl hj
  | cons j0 rest ih =>
      by_cases h0 : j0.jobId = id
      · simp [setJob, h0] at hj
        rcases hj with h | h
        · exact Or.inl h
        · exact Or.inr (List.mem_cons_of_mem _ h)
      · simp [setJob, h0] at hj
        rcases hj with h | h
        · exact Or.inr (by simp [h])
        · rcases ih h with h2 | h2
          · exact Or.inl h2
          · exact Or.inr (List.mem_cons_of_mem _ h2)

/-- A successful lookup returns a member of the registry. -/
theorem findJob_mem (l : List JobData) (id : String) (j : JobData)
    (h : findJob l id = some j) : j ∈ l := by
  induction l with
  | nil => simp [findJob] at h
  | cons j0 rest ih =>
      by_cases h0 : j0.jobId = id
      · simp [findJob, h0] at h
        exact h ▸ List.mem_cons_self j0 rest
      · simp [findJob, h0] at h
        exact List.mem_cons_of_mem _ (ih h)

/-! ## Webhook-scan lemmas -/

/-- A terminal record is never touched by the webhook scan: whatever entry
the scan stops at, every terminal entry keeps its position and value. -/
theorem webhookLoop_preserves_terminal (jobs : List JobData) (ty : String)
    (d : WebsetData) (wid : String) (now : Nat) (i : Nat) (j : JobData)
    (hidx : jobs.get? i = some j)
    (hterm : j.status = .completed ∨ j.status = .failed) :
    (webhookLoop jobs ty d wid now).get? i = some j := by
  induction jobs generalizing i with
  | nil => simp at hidx
  | cons j0 rest ih =>
      unfold webhookLoop
      by_cases hm : j0.websetId = some wid
      · rw [if_pos hm]
        by_cases ht0 : j0.status = .completed ∨ j0.status = .failed
        · rw [if_pos ht0]
          exact hidx
        · rw [if_neg ht0]
          cases i with
          | zero =>
              simp only [List.get?_cons_zero, Option.some.injEq] at hidx
              exact absurd (hidx ▸ hterm) ht0
          | succ i2 =>
              simpa using hidx
      · rw [if_neg hm]
        cases i with
        | zero => simpa using hidx
        | succ i2 =>
            simp only [List.get?_cons_succ] at hidx ⊢
            exact ih i2 hidx

/-- If no registry entry carries the payload's webset id, the scan returns
the registry unchanged. -/
theorem webhookLoop_no_match (jobs : List JobData) (ty : String)
    (d : WebsetData) (wid : String) (now : Nat)
    (h : ∀ j ∈ jobs, j.websetId ≠ some wid) :
    webhookLoop jobs ty d wid now = jobs := by
  induction jobs with
  | nil => rfl
  | cons j0 rest ih =>
      unfold webhookLoop
      rw [if_neg (h j0 (List.mem_cons_self j0 rest))]
      rw [ih fun j hj => h j (List.mem_cons_of_mem _ hj)]

/-- Every entry other than the first webset-id match keeps its position and
value across the webhook scan. -/
theorem webhookLoop_not_first (jobs : List JobData) (ty : String)
    (d : WebsetData) (wid : String) (now : Nat) (i : Nat) (j : JobData)
    (hidx : jobs.get? i = some j)
    (hne : firstMatchIdx jobs wid ≠ some i) :
    (webhookLoop jobs ty d wid now).get? i = some j := by
  induction jobs generalizing i with
  | nil => simp at hidx
  | cons j0 rest ih =>
      unfold webhookLoop
      by_cases hm : j0.websetId = some wid
      · rw [if_pos hm]
        have h0 : firstMatchIdx (j0 :: rest) wid = some 0 := by
          simp [firstMatchIdx, hm]
        cases i with
        | zero => exact absurd (h0 ▸ rfl) (h0 ▸ hne)
        | succ i2 =>
            by_cases ht0 : j0.status = .completed ∨ j0.status = .failed
            · rw [if_pos ht0]; exact hidx
            · rw [if_neg ht0]
              simpa using hidx
      · rw [if_neg hm]
        cases i with
        | zero => simpa using hidx
        | succ i2 =>
            simp only [List.get?_cons_succ] at hidx ⊢
            refine ih i2 hidx ?_
            intro hcontra
            apply hne
            simp [firstMatchIdx, hm, hcontra]

/-- At the first webset-id match, when that record is non-terminal, the
scan replaces exactly that entry with the webhook update of it. -/
theorem webhookLoop_at_first (jobs : List JobData) (ty : String)
    (d : WebsetData) (wid : String) (now : Nat) (i : Nat) (j : JobData)
    (hfirst : firstMatchIdx jobs wid = some i)
    (hidx : jobs.get? i = some j)
    (hnt : ¬(j.status = .completed ∨ j.status = .failed)) :
    (webhookLoop jobs ty d wid now).get? i =
      some (applyWebhookToJob j ty d now) := by
  induction jobs generalizing i with
  | nil => simp at hidx
  | cons j0 rest ih =>
      unfold webhookLoop
      by_cases hm : j0.websetId = some wid
      · rw [if_pos hm]
        have h0 : i = 0 := by
          have : firstMatchIdx (j0 :: rest) wid = some 0 := by
            simp [firstMatchIdx, hm]
          have h2 := hfirst ▸ this
          simpa using h2
        subst h0
        simp only [List.get?_cons_zero, Option.some.injEq] at hidx
        subst hidx
        rw [if_neg hnt]
        rfl
      · rw [if_neg hm]
        cases i with
        | zero =>
            exfalso
            simp only [firstMatchIdx, if_neg hm] at hfirst
            rcases Option.map_eq_some'.mp hfirst with ⟨i3, _, hadd⟩
            exact Nat.succ_ne_zero i3 hadd
        | succ i2 =>
            simp only [List.get?_cons_succ] at hidx ⊢
            have hrest : firstMatchIdx rest wid = some i2 := by
              simp only [firstMatchIdx, if_neg hm] at hfirst
              rcases Option.map_eq_some'.mp hfirst with ⟨i3, hi3, hadd⟩
              have : i3 = i2 := by omega
              exact this ▸ hi3
            exact ih i2 hrest hidx

/-- The guarded write always ends with the candidate fields: when the guard
skips the write, the candidate equalled the stored fields anyway. -/
theorem webhookWrite_fields (job : JobData) (s : JobStatus)
    (r : Option WebsetData) (e : Option String) (now : Nat) :
    (webhookWrite job s r e now).status = s
    ∧ (webhookWrite job s r e now).results = r
    ∧ (webhookWrite job s r e now).error = e := by
  unfold webhookWrite
  by_cases h : s ≠ job.status ∨ r ≠ job.results ∨ e ≠ job.error
  · rw [if_pos h]
    exact ⟨rfl, rfl, rfl⟩
  · rw [if_neg h]
    push_neg at h
    exact ⟨h.1.symm, h.2.1.symm, h.2.2.symm⟩

/-- When the candidate results differ from the stored ones, the guarded
write fires and also advances `updatedAt`. -/
theorem webhookWrite_of_results_ne (job : JobData) (s : JobStatus)
    (r : Option WebsetData) (e : Option String) (now : Nat)
    (h : r ≠ job.results) :
    webhookWrite job s r e now =
      { job with status := s, results := r, error := e, updatedAt := now } := by
  unfold webhookWrite
  rw [if_pos (Or.inr (Or.inl h))]

/-- Every record of the scanned registry is an original record or the
webhook update of a non-terminal original record. -/
theorem mem_webhookLoop (jobs : List JobData) (ty : String) (d : WebsetData)
    (wid : String) (now : Nat) (j : JobData)
    (hj : j ∈ webhookLoop jobs ty d wid now) :
    j ∈ jobs ∨ ∃ j0 ∈ jobs, ¬(j0.status = .completed ∨ j0.status = .failed)
      ∧ j = applyWebhookToJob j0 ty d now := by
  induction jobs with
  | nil => simp [webhookLoop] at hj
  | cons j0 rest ih =>
      unfold webhookLoop at hj
      by_cases hm : j0.websetId = some wid
      · rw [if_pos hm] at hj
        by_cases ht : j0.status = .completed ∨ j0.status = .failed
        · rw [if_pos ht] at hj
          exact Or.inl hj
        · rw [if_neg ht] at hj
          rcases List.mem_cons.mp hj with h | h
          · exact Or.inr ⟨j0, List.mem_cons_self j0 rest, ht, h⟩
          · exact Or.inl (List.mem_cons_of_mem _ h)
      · rw [if_neg hm] at hj
        rcases List.mem_cons.mp hj with h | h
        · exact Or.inl (h ▸ List.mem_cons_self j0 rest)
        · rcases ih h with h2 | ⟨j1, hj1, hnt, he⟩
          · exact Or.inl (List.mem_cons_of_mem _ h2)
          · exact Or.inr ⟨j1, List.mem_cons_of_mem _ hj1, hnt, he⟩

/-! ## Concrete fixtures used by witnesses and counterexamples -/

/-- A running job with an assigned webset id. -/
def runJob1 : JobData :=
  { jobId := "j1"
    websetId := some "w1"
    status := .running
    results := none
    error := none
    createdAt := 0
    updatedAt := 0 }

/-- A completed-search upstream payload for webset w2. -/
def doneData : WebsetData := ⟨"w2", [⟨"completed", none⟩]⟩

/-- A job already in the terminal COMPLETED state with stored results. -/
def doneJob : JobData :=
  { jobId := "j2"
    websetId := some "w2"
    status := .completed
    results := some doneData
    error := none
    createdAt := 0
    updatedAt := 1 }

/-! ## Claim theorems -/

/-- C1: Terminal absorption — once a job record is Completed or Failed, a
poll returns the stored status/results/error with the registry unchanged
and issues no upstream call, and a webhook delivery leaves the record's
position and value (hence status, results and error) unchanged. -/
theorem C1_terminal_absorption (jobs : List JobData) (jobId : String)
    (job : JobData) (fetchResult : Except String WebsetData) (now : Nat)
    (payload : WebhookPayload) (now2 : Nat) (i : Nat)
    (hfind : findJob jobs jobId = some job)
    (hidx : jobs.get? i = some job)
    (hterm : job.status = .completed ∨ job.status = .failed) :
    getJobStatus jobs jobId fetchResult now =
      .ok (jobs, ⟨job.status, job.results, job.error⟩)
    ∧ pollCalls jobs jobId = []
    ∧ (handleWebhookUpdate jobs payload now2).get? i = some job := by
  refine ⟨?_, ?_, ?_⟩
  · unfold getJobStatus
    rw [hfind]
    simp only [if_pos hterm]
  · unfold pollCalls
    rw [hfind]
    simp only [if_pos hterm]
  · unfold handleWebhookUpdate
    by_cases hv : payload.type = "" ∨ payload.data.id = ""
    · rw [if_pos hv]
      exact hidx
    · rw [if_neg hv]
      exact webhookLoop_preserves_terminal _ _ _ _ _ _ _ hidx hterm

/-- Witness for C1 at a concrete terminal job. -/
theorem C1_witness :
    getJobStatus [doneJob] "j2" (.error "ignored") 9 =
      .ok ([doneJob], ⟨doneJob.status, doneJob.results, doneJob.error⟩)
    ∧ pollCalls [doneJob] "j2" = []
    ∧ (handleWebhookUpdate [doneJob]
        ⟨"webset.search.completed", ⟨"w2", []⟩⟩ 9).get? 0 = some doneJob :=
  C1_terminal_absorption [doneJob] "j2" doneJob (.error "ignored") 9
    ⟨"webset.search.completed", ⟨"w2", []⟩⟩ 9 0
    (by decide) (by decide) (by decide)

/-- C4: submit creates a Pending record under the fresh jobId, then — after
the upstream create call resolves — transitions it to Running with the
returned websetId stored on success, or directly to Failed with the
client's error on failure, and returns the jobId in both cases. -/
theorem C4_submit_lifecycle (jobs : List JobData) (jobId : String)
    (now now2 : Nat) (res : Except String String) :
    (startWebsetJob jobs jobId now now2 res).2 = jobId
    ∧ (initialJobData jobId now).status = .pending
    ∧ findJob (setJob jobs jobId (initialJobData jobId now)) jobId =
        some (initialJobData jobId now)
    ∧ (∀ wid, res = .ok wid →
        findJob (startWebsetJob jobs jobId now now2 res).1 jobId =
          some { initialJobData jobId now with
                   websetId := some wid
                   status := .running
                   updatedAt := now2 })
    ∧ (∀ msg, res = .error msg →
        findJob (startWebsetJob jobs jobId now now2 res).1 jobId =
          some { initialJobData jobId now with
                   status := .failed
                   error := some msg
                   updatedAt := now2 }) := by
  refine ⟨?_, rfl, ?_, ?_, ?_⟩
  · unfold startWebsetJob
    cases res <;> rfl
  · exact findJob_setJob_self _ _ _ rfl
  · intro wid hres
    subst hres
    exact findJob_setJob_self _ _ _ rfl
  · intro msg hres
    subst hres
    exact findJob_setJob_self _ _ _ rfl

/-- Witness for C4 at a concrete successful and failed submission. -/
theorem C4_witness :
    (startWebsetJob [] "j9" 0 1 (.ok "w9")).2 = "j9"
    ∧ findJob (startWebsetJob [] "j9" 0 1 (.ok "w9")).1 "j9" =
        some { initialJobData "j9" 0 with
                 websetId := some "w9"
                 status := .running
                 updatedAt := 1 } :=
  ⟨(C4_submit_lifecycle [] "j9" 0 1 (.ok "w9")).1,
   (C4_submit_lifecycle [] "j9" 0 1 (.ok "w9")).2.2.2.1 "w9" rfl⟩

/-- C8: a webhook whose upstream id matches no record's websetId creates no
record, raises no error, and leaves the registry exactly as it was. -/
theorem C8_unmatched_webhook_noop (jobs : List JobData)
    (payload : WebhookPayload) (now : Nat)
    (hnomatch : ∀ j ∈ jobs, j.websetId ≠ some payload.data.id) :
    handleWebhookUpdate jobs payload now = jobs := by
  unfold handleWebhookUpdate
  by_cases hv : payload.type = "" ∨ payload.data.id = ""
  · rw [if_pos hv]
  · rw [if_neg hv]
    exact webhookLoop_no_match _ _ _ _ _ hnomatch

/-- Witness for C8 at a concrete unmatched delivery. -/
theorem C8_witness :
    handleWebhookUpdate [runJob1]
      ⟨"webset.search.completed", ⟨"unknown-id", []⟩⟩ 7 = [runJob1] :=
  C8_unmatched_webhook_noop [runJob1]
    ⟨"webset.search.completed", ⟨"unknown-id", []⟩⟩ 7 (by decide)

/-- C9: one webhook delivery mutates at most one record — every registry
entry other than the first websetId match keeps its position and value. -/
theorem C9_at_most_one_record (jobs : List JobData) (payload : WebhookPayload)
    (now : Nat) (i : Nat) (j : JobData)
    (hidx : jobs.get? i = some j)
    (hne : firstMatchIdx jobs payload.data.id ≠ some i) :
    (handleWebhookUpdate jobs payload now).get? i = some j := by
  unfold handleWebhookUpdate
  by_cases hv : payload.type = "" ∨ payload.data.id = ""
  · rw [if_pos hv]
    exact hidx
  · rw [if_neg hv]
    exact webhookLoop_not_first _ _ _ _ _ _ _ hidx hne

/-- Witness for C9: a second record sharing the matched websetId is left
unchanged because the scan stops at the first match. -/
theorem C9_witness :
    (handleWebhookUpdate [runJob1, { runJob1 with jobId := "j1b" }]
      ⟨"webset.search.completed", ⟨"w1", [⟨"completed", none⟩]⟩⟩ 7).get? 1 =
      some { runJob1 with jobId := "j1b" } :=
  C9_at_most_one_record [runJob1, { runJob1 with jobId := "j1b" }]
    ⟨"webset.search.completed", ⟨"w1", [⟨"completed", none⟩]⟩⟩ 7 1
    { runJob1 with jobId := "j1b" } (by decide) (by decide)

/-- C10: a valid webhook whose event type and embedded search status
indicate neither completion nor cancellation, delivered for a non-terminal
matched job whose stored results differ from the payload, keeps status and
error unchanged but overwrites results with the event payload and advances
updatedAt. -/
theorem C10_progress_event_updates_results (jobs : List JobData)
    (payload : WebhookPayload) (now : Nat) (i : Nat) (job : JobData)
    (hty : payload.type ≠ "")
    (hid : payload.data.id ≠ "")
    (hfirst : firstMatchIdx jobs payload.data.id = some i)
    (hidx : jobs.get? i = some job)
    (hnt : ¬(job.status = .completed ∨ job.status = .failed))
    (hety : payload.type ≠ "webset.search.completed")
    (hetyc : payload.type ≠ "webset.search.canceled")
    (hss : webhookSearchStatus payload.data ≠ some "completed")
    (hssc : webhookSearchStatus payload.data ≠ some "canceled")
    (hfresh : some payload.data ≠ job.results) :
    (handleWebhookUpdate jobs payload now).get? i =
      some { job with results := some payload.data, updatedAt := now } := by
  unfold handleWebhookUpdate
  rw [if_neg (by push_neg; exact ⟨hty, hid⟩)]
  rw [webhookLoop_at_first _ _ _ _ _ _ _ hfirst hidx hnt]
  simp only [applyWebhookToJob]
  rw [if_neg (by push_neg; exact ⟨hety, hss⟩)]
  rw [if_neg (by push_neg; exact ⟨hetyc, hssc⟩)]
  rw [webhookWrite_of_results_ne _ _ _ _ _ hfresh]

/-- Witness for C10 at a concrete running-progress event. -/
theorem C10_witness :
    (handleWebhookUpdate [runJob1]
      ⟨"webset.search.running", ⟨"w1", [⟨"running", none⟩]⟩⟩ 7).get? 0 =
      some { runJob1 with
               results := some ⟨"w1", [⟨"running", none⟩]⟩
               updatedAt := 7 } :=
  C10_progress_event_updates_results [runJob1]
    ⟨"webset.search.running", ⟨"w1", [⟨"running", none⟩]⟩⟩ 7 0 runJob1
    (by decide) (by decide) (by decide) (by decide) (by decide)
    (by decide) (by decide) (by decide) (by decide) (by decide)

/-- C2 counterexample: for the concrete Running job `runJob1` (websetId
set), a failing upstream fetch during poll does NOT leave the record
Running — `getJobStatus` stores status FAILED with a status-check error, so
the claim as stated is false at this input. -/
theorem C2_counterexample :
    getJobStatus [runJob1] "j1" (.error "network down") 5 =
      .ok ([{ runJob1 with
                status := .failed
                error := some "Status check failed: network down"
                updatedAt := 5 }],
           ⟨.failed, none, some "Status check failed: network down"⟩)
    ∧ JobStatus.failed ≠ JobStatus.running := by
  exact ⟨rfl, by decide⟩

/-- C2 (amended): for every Running job with a websetId, a failing upstream
fetch during poll transitions the record to Failed, storing the error
`Status check failed: msg` while keeping the previous results, and this
failed state is returned to the caller (not thrown). -/
theorem C2_poll_error_fails_job (jobs : List JobData) (jobId : String)
    (job : JobData) (wid msg : String) (now : Nat)
    (hfind : findJob jobs jobId = some job)
    (hrun : job.status = .running)
    (hwid : job.websetId = some wid) :
    getJobStatus jobs jobId (.error msg) now =
      .ok (setJob jobs jobId
            { job with
                status := .failed
                error := some ("Status check failed: " ++ msg)
                updatedAt := now },
           ⟨.failed, job.results, some ("Status check failed: " ++ msg)⟩) := by
  obtain ⟨jid, jwid, jst, jres, jerr, jca, jua⟩ := job
  simp only at hrun hwid ⊢
  subst hrun
  subst hwid
  unfold getJobStatus
  rw [hfind]
  rfl

/-- Witness for the amended C2 at the concrete Running job. -/
theorem C2_witness :
    getJobStatus [runJob1] "j1" (.error "boom") 5 =
      .ok (setJob [runJob1] "j1"
            { runJob1 with
                status := .failed
                error := some ("Status check failed: " ++ "boom")
                updatedAt := 5 },
           ⟨.failed, runJob1.results, some ("Status check failed: " ++ "boom")⟩) :=
  C2_poll_error_fails_job [runJob1] "j1" runJob1 "w1" "boom" 5
    (by decide) (by decide) (by decide)

/-- C3: the retention sweep keeps a record exactly when it is within
`maxAge` of `now`, or is Completed while `preserveCompleted` is set; in
particular Failed records past `maxAge` are always deleted and fresh
records are always kept. -/
theorem C3_sweep_policy (jobs : List JobData) (now maxAge : Nat)
    (pc : Bool) (j : JobData) :
    j ∈ sweep jobs now maxAge pc ↔
      j ∈ jobs ∧ (now - j.updatedAt ≤ maxAge
        ∨ (pc = true ∧ j.status = .completed)) := by
  simp only [sweep, List.mem_filter, decide_eq_true_eq]
  constructor
  · rintro ⟨hmem, hp⟩
    refine ⟨hmem, ?_⟩
    by_cases hage : now - j.updatedAt ≤ maxAge
    · exact Or.inl hage
    · have hb : ¬¬(pc = true ∧ j.status = .completed) :=
        fun hnb => hp ⟨by omega, hnb⟩
      exact Or.inr (not_not.mp hb)
  · rintro ⟨hmem, hor⟩
    refine ⟨hmem, fun hdel => ?_⟩
    rcases hor with h | h
    · omega
    · exact hdel.2 h

/-- Witness for C3: an old Completed record survives a preserve-completed
sweep while an old Running record is evicted. -/
theorem C3_witness :
    doneJob ∈ sweep [doneJob, runJob1] 100 60 true
    ∧ runJob1 ∉ sweep [doneJob, runJob1] 100 60 true := by
  constructor
  · exact (C3_sweep_policy [doneJob, runJob1] 100 60 true doneJob).mpr
      ⟨by decide, Or.inr ⟨rfl, rfl⟩⟩
  · intro h
    have h2 := (C3_sweep_policy [doneJob, runJob1] 100 60 true runJob1).mp h
    rcases h2.2 with h3 | h3
    · simp [runJob1] at h3
    · exact absurd h3.2 (by decide)

/-- A canceled-search upstream payload for webset w1. -/
def cancData : WebsetData := ⟨"w1", [⟨"canceled", some "user canceled"⟩]⟩

/-- C5 counterexample: a poll of a Running job that observes a canceled
search enters Failed while STORING the upstream payload in results, so
"results is populated only on entry to Completed" and "a Failed record
never has a non-null results payload" are false at this concrete input. -/
theorem C5_counterexample :
    getJobStatus [runJob1] "j1" (.ok cancData) 5 =
      .ok ([{ runJob1 with
                status := .failed
                results := some cancData
                error := some "Webset creation was canceled (Reason: user canceled)"
                updatedAt := 5 }],
           ⟨.failed, some cancData,
            some "Webset creation was canceled (Reason: user canceled)"⟩)
    ∧ some cancData ≠ (none : Option WebsetData) := by
  refine ⟨rfl, ?_⟩
  decide

/-- The half of C5 that does hold: any record with a non-null error is
Failed. -/
def ErrOnlyFailed (jobs : List JobData) : Prop :=
  ∀ j ∈ jobs, j.error ≠ none → j.status = .failed

/-- One registry operation preserves the error-only-on-Failed invariant. -/
theorem errOnlyFailed_execOp (jobs : List JobData) (op : Op)
    (h : ErrOnlyFailed jobs) : ErrOnlyFailed (execOp jobs op) := by
  cases op with
  | submit jobId now now2 res =>
      intro j hj herr
      cases res with
      | ok wid =>
          simp only [execOp, startWebsetJob] at hj
          rcases mem_setJob _ _ _ _ hj with hv | hj2
          · subst hv
            simp [initialJobData] at herr
          · rcases mem_setJob _ _ _ _ hj2 with hv | hj3
            · subst hv
              simp [initialJobData] at herr
            · exact h j hj3 herr
      | error msg =>
          simp only [execOp, startWebsetJob] at hj
          rcases mem_setJob _ _ _ _ hj with hv | hj2
          · subst hv
            rfl
          · rcases mem_setJob _ _ _ _ hj2 with hv | hj3
            · subst hv
              simp [initialJobData] at herr
            · exact h j hj3 herr
  | poll jobId fetch now =>
      intro j hj herr
      simp only [execOp] at hj
      unfold getJobStatus at hj
      cases hfind : findJob jobs jobId with
      | none =>
          rw [hfind] at hj
          exact h j hj herr
      | some job =>
          rw [hfind] at hj
          have hjobmem := findJob_mem _ _ _ hfind
          by_cases hterm : job.status = .completed ∨ job.status = .failed
          · simp only [if_pos hterm] at hj
            exact h j hj herr
          · simp only [if_neg hterm] at hj
            have hjerr : job.error = none := by
              by_cases he : job.error = none
              · exact he
              · exact absurd (h job hjobmem he) fun hf => hterm (Or.inr hf)
            cases hwid : job.websetId with
            | none =>
                simp only [hwid] at hj
                exact h j hj herr
            | some wid =>
                simp only [hwid] at hj
                cases fetch with
                | ok d =>
                    simp only at hj
                    rcases mem_setJob _ _ _ _ hj with hv | hj2
                    · subst hv
                      unfold pollApply at herr ⊢
                      by_cases hc : searchStatusOf d = "completed"
                      · rw [if_pos hc] at herr
                        simp [hjerr] at herr
                      · rw [if_neg hc] at herr ⊢
                        by_cases hx : searchStatusOf d = "canceled"
                        · rw [if_pos hx]
                        · rw [if_neg hx] at herr
                          simp [hjerr] at herr
                    · exact h j hj2 herr
                | error msg =>
                    simp only at hj
                    rcases mem_setJob _ _ _ _ hj with hv | hj2
                    · subst hv
                      rfl
                    · exact h j hj2 herr
  | webhook payload now =>
      intro j hj herr
      simp only [execOp] at hj
      unfold handleWebhookUpdate at hj
      by_cases hv : payload.type = "" ∨ payload.data.id = ""
      · rw [if_pos hv] at hj
        exact h j hj herr
      · rw [if_neg hv] at hj
        rcases mem_webhookLoop _ _ _ _ _ _ hj with hmem | ⟨j0, hj0, hnt, he⟩
        · exact h j hmem herr
        · have hj0err : j0.error = none := by
            by_cases he0 : j0.error = none
            · exact he0
            · exact absurd (h j0 hj0 he0) fun hf => hnt (Or.inr hf)
          subst he
          unfold applyWebhookToJob at herr ⊢
          by_cases hc : payload.type = "webset.search.completed"
            ∨ webhookSearchStatus payload.data = some "completed"
          · rw [if_pos hc] at herr
            have := (webhookWrite_fields j0 .completed (some payload.data)
              none now).2.2
            exact absurd this herr
          · rw [if_neg hc] at herr ⊢
            by_cases hx : payload.type = "webset.search.canceled"
              ∨ webhookSearchStatus payload.data = some "canceled"
            · rw [if_pos hx]
              exact (webhookWrite_fields j0 .failed (some payload.data) _ now).1
            · rw [if_neg hx] at herr
              have := (webhookWrite_fields j0 j0.status (some payload.data)
                j0.error now).2.2
              rw [this, hj0err] at herr
              exact absurd rfl herr
  | cleanup now maxAge pc =>
      intro j hj herr
      simp only [execOp, sweep] at hj
      exact h j (List.mem_filter.mp hj).1 herr

/-- C5 (amended): in every registry state reachable from the empty registry
by submit, poll, webhook and sweep operations, the error field is non-null
only on records in the Failed state; the results field, by contrast, may be
populated on Running progress snapshots and on Failed (canceled) records,
not only on Completed ones. -/
theorem C5_error_only_on_failed (ops : List Op) :
    ∀ j ∈ execOps [] ops, j.error ≠ none → j.status = .failed := by
  have hgen : ∀ (l : List Op) (jobs : List JobData), ErrOnlyFailed jobs →
      ErrOnlyFailed (execOps jobs l) := by
    intro l
    induction l with
    | nil => intro jobs h; exact h
    | cons op rest ih =>
        intro jobs h
        exact ih _ (errOnlyFailed_execOp _ _ h)
  exact hgen ops [] (by intro j hj; simp at hj)

/-- Witness for the amended C5 after a concrete failed submission. -/
theorem C5_witness :
    (⟨"j", none, .failed, none, some "boom", 0, 1⟩ : JobData).status = .failed :=
  C5_error_only_on_failed [.submit "j" 0 1 (.error "boom")]
    ⟨"j", none, .failed, none, some "boom", 0, 1⟩ (by decide) (by decide)

/-- C6: channel agreement — for a Running job and any upstream payload,
mapping the payload through the poll path and delivering the same payload
through the webhook path with the event type carrying the same information
yield records that agree on status and results. -/
theorem C6_channel_agreement (job : JobData) (d : WebsetData) (now now2 : Nat)
    (hrun : job.status = .running) :
    (pollApply job d now).status =
      (applyWebhookToJob job (equivalentEventType d) d now2).status
    ∧ (pollApply job d now).results =
      (applyWebhookToJob job (equivalentEventType d) d now2).results := by
  rcases d with ⟨did, searches⟩
  cases searches with
  | nil =>
      have hw := webhookWrite_fields job job.status
        (some ⟨did, []⟩) job.error now2
      have h1 : applyWebhookToJob job (equivalentEventType ⟨did, []⟩)
          ⟨did, []⟩ now2 =
          webhookWrite job job.status (some ⟨did, []⟩) job.error now2 := by
        simp [applyWebhookToJob, equivalentEventType, webhookSearchStatus]
      have h2 : pollApply job ⟨did, []⟩ now =
          { job with
              status := .running
              results := some ⟨did, []⟩
              updatedAt := now } := by
        simp [pollApply, searchStatusOf]
      rw [h1, h2]
      exact ⟨by rw [hw.1, hrun], by rw [hw.2.1]⟩
  | cons s ss =>
      by_cases hc : s.status = "completed"
      · have hw := webhookWrite_fields job .completed
          (some ⟨did, s :: ss⟩) none now2
        have h1 : applyWebhookToJob job (equivalentEventType ⟨did, s :: ss⟩)
            ⟨did, s :: ss⟩ now2 =
            webhookWrite job .completed (some ⟨did, s :: ss⟩) none now2 := by
          simp [applyWebhookToJob, equivalentEventType, webhookSearchStatus, hc]
        have h2 : pollApply job ⟨did, s :: ss⟩ now =
            { job with
                status := .completed
                results := some ⟨did, s :: ss⟩
                updatedAt := now } := by
          simp [pollApply, searchStatusOf, hc]
        rw [h1, h2]
        exact ⟨by rw [hw.1], by rw [hw.2.1]⟩
      · by_cases hx : s.status = "canceled"
        · have hw := webhookWrite_fields job .failed (some ⟨did, s :: ss⟩)
            (some ("Webset processing failed or was canceled via webhook (Reason: " ++
              canceledReasonStr ⟨did, s :: ss⟩ ++ ")")) now2
          have h1 : applyWebhookToJob job (equivalentEventType ⟨did, s :: ss⟩)
              ⟨did, s :: ss⟩ now2 =
              webhookWrite job .failed (some ⟨did, s :: ss⟩)
                (some ("Webset processing failed or was canceled via webhook (Reason: " ++
                  canceledReasonStr ⟨did, s :: ss⟩ ++ ")")) now2 := by
            simp [applyWebhookToJob, equivalentEventType, webhookSearchStatus, hc, hx]
          have h2 : pollApply job ⟨did, s :: ss⟩ now =
              { job with
                  status := .failed
                  results := some ⟨did, s :: ss⟩
                  error := some ("Webset creation was canceled (Reason: " ++
                    canceledReasonStr ⟨did, s :: ss⟩ ++ ")")
                  updatedAt := now } := by
            simp [pollApply, searchStatusOf, hc, hx]
          rw [h1, h2]
          exact ⟨by rw [hw.1], by rw [hw.2.1]⟩
        · have hw := webhookWrite_fields job job.status
            (some ⟨did, s :: ss⟩) job.error now2
          have h1 : applyWebhookToJob job (equivalentEventType ⟨did, s :: ss⟩)
              ⟨did, s :: ss⟩ now2 =
              webhookWrite job job.status (some ⟨did, s :: ss⟩) job.error now2 := by
            simp [applyWebhookToJob, equivalentEventType, webhookSearchStatus, hc, hx]
          have h2 : pollApply job ⟨did, s :: ss⟩ now =
              { job with
                  status := .running
                  results := some ⟨did, s :: ss⟩
                  updatedAt := now } := by
            simp [pollApply, searchStatusOf, hc, hx]
          rw [h1, h2]
          exact ⟨by rw [hw.1, hrun], by rw [hw.2.1]⟩

/-- Witness for C6 at the concrete Running job and a completed payload. -/
theorem C6_witness :
    (pollApply runJob1 doneData 5).status =
      (applyWebhookToJob runJob1 (equivalentEventType doneData) doneData 6).status
    ∧ (pollApply runJob1 doneData 5).results =
      (applyWebhookToJob runJob1 (equivalentEventType doneData) doneData 6).results :=
  C6_channel_agreement runJob1 doneData 5 6 (by decide)

/-- Creates in a concatenated trace add up. -/
theorem countCreates_append (a b : List UpstreamCall) :
    countCreates (a ++ b) = countCreates a + countCreates b := by
  simp [countCreates, List.filter_append]

/-- A poll never issues a create call. -/
theorem create_not_in_pollCalls (jobs : List JobData) (jobId : String) :
    UpstreamCall.create ∉ pollCalls jobs jobId := by
  intro hmem
  unfold pollCalls at hmem
  cases hf : findJob jobs jobId with
  | none =>
      rw [hf] at hmem
      simp at hmem
  | some job =>
      rw [hf] at hmem
      by_cases ht : job.status = .completed ∨ job.status = .failed
      · simp only [if_pos ht] at hmem
        simp at hmem
      · simp only [if_neg ht] at hmem
        cases hw : job.websetId with
        | none =>
            simp only [hw] at hmem
            simp at hmem
        | some wid =>
            simp only [hw] at hmem
            simp at hmem

/-- A trace made only of polls contains no create call. -/
theorem execTrace_no_creates (ops : List Op) :
    ∀ jobs, (∀ op ∈ ops, op.isPoll = true) →
      countCreates (execTrace jobs ops) = 0 := by
  induction ops with
  | nil =>
      intro jobs _
      rfl
  | cons op rest ih =>
      intro jobs hall
      rw [execTrace, countCreates_append]
      rw [ih _ fun o ho => hall o (List.mem_cons_of_mem _ ho)]
      have hop := hall op (List.mem_cons_self op rest)
      cases op with
      | poll jobId fetch now =>
          have : countCreates (pollCalls jobs jobId) = 0 := by
            have hsub : ∀ c ∈ pollCalls jobs jobId, ¬(c = UpstreamCall.create) := by
              intro c hc hcc
              exact create_not_in_pollCalls jobs jobId (hcc ▸ hc)
            simp only [countCreates, List.length_eq_zero]
            rw [List.filter_eq_nil_iff]
            intro c hc
            simpa using hsub c hc
          simp [opCalls, this]
      | submit a b c d => simp [Op.isPoll] at hop
      | webhook p n => simp [Op.isPoll] at hop
      | cleanup a b c => simp [Op.isPoll] at hop

/-- C7: single creation — a submit followed by any sequence of polls issues
exactly one upstream create call, and no poll (in particular none made
while `websetId` is still unset) ever issues a create. -/
theorem C7_single_creation (jobs : List JobData) (jobId : String)
    (now now2 : Nat) (res : Except String String) (rest : List Op)
    (hrest : ∀ op ∈ rest, op.isPoll = true) :
    countCreates (execTrace jobs (Op.submit jobId now now2 res :: rest)) = 1
    ∧ ∀ (js : List JobData) (id : String),
        UpstreamCall.create ∉ pollCalls js id := by
  constructor
  · rw [execTrace, countCreates_append]
    rw [execTrace_no_creates rest _ hrest]
    rfl
  · exact create_not_in_pollCalls

/-- Witness for C7: one submit and two polls (the second while the job is
already terminal) issue exactly one create. -/
theorem C7_witness :
    countCreates (execTrace []
      (Op.submit "j1" 0 1 (.ok "w1") ::
        [Op.poll "j1" (.ok cancData) 2, Op.poll "j1" (.ok cancData) 3])) = 1 :=
  (C7_single_creation [] "j1" 0 1 (.ok "w1")
    [Op.poll "j1" (.ok cancData) 2, Op.poll "j1" (.ok cancData) 3]
    (by decide)).1
